import Mathlib

/-!
Verification development for the data_visualizer dashboard
(src/data_visualizer/scripts). The JavaScript pipeline is shallowly
embedded: records are structures with optional fields, the browser DOM
inputs become explicit configuration values, JavaScript string builtins
are modelled as character-list functions, and the two global arrays
(prData / filteredPrData) become an explicit Store threaded through the
loading, filtering and rendering functions. Date parsing
(new Date(string)) is kept abstract as a parameter
dparse : String → Option Int, where none models an Invalid Date (NaN).
-/

namespace DataViz

/-- Models String.prototype.toLowerCase (ASCII case folding suffices for this data). -/
def jsToLowerCase (s : String) : String :=
  String.mk (s.data.map Char.toLower)

/-- Character-list prefix test (recursive on the pattern). -/
def isPrefixChars : List Char → List Char → Bool
  | [], _ => true
  | a :: as, l =>
    match l with
    | [] => false
    | b :: bs => a == b && isPrefixChars as bs

/-- Models String.prototype.startsWith. -/
def jsStartsWith (s pre : String) : Bool :=
  isPrefixChars pre.data s.data

/-- Models String.prototype.substring(start). -/
def jsSubstringFrom (s : String) (start : Nat) : String :=
  String.mk (s.data.drop start)

/-- Models String.prototype.includes: sub occurs contiguously inside s. -/
def jsIncludes (s sub : String) : Bool :=
  decide (sub.data <:+: s.data)

/-- Models String.prototype.split with separator newline, on character lists. -/
def splitLinesChars : List Char → List (List Char)
  | [] => [[]]
  | c :: cs =>
    match splitLinesChars cs with
    | [] => [[]]
    | l :: ls => if c = '\n' then [] :: l :: ls else (c :: l) :: ls

/-- Models String.prototype.split with separator newline. -/
def jsSplitLines (s : String) : List String :=
  (splitLinesChars s.data).map String.mk

/-- Models JavaScript truthiness of an optional string value:
undefined and the empty string are falsy. -/
def jsTruthy : Option String → Bool
  | none => false
  | some s => !(s = "")

/-- FileChange: one modified file inside a record (see the data model used by
dataAnalyzer.js, prList.js and utils.js). Absent numeric fields default to 0
at each use site, absent diff text to a placeholder. -/
structure FileChange where
  filename : Option String
  additions : Option Nat
  deletions : Option Nat
  changes : Option Nat
  patch : Option String
deriving DecidableEq

/-- Record: one pull-request entry of the loaded dataset. Every field may be
absent in the input JSON, which the scripts read as undefined. -/
structure Record where
  repo : Option String
  number : Option Nat
  created_at : Option String
  problem_statement : Option String
  patch : Option (List FileChange)
  test_patch : Option (List FileChange)
  FAIL_TO_PASS : Option String
deriving DecidableEq

/-- Models escapeHtml from utils.js: the DOM textContent / innerHTML round
trip replaces the characters ampersand, less-than and greater-than by their
HTML entities. Escape of a single character. -/
def escapeHtmlChar (c : Char) : List Char :=
  if c = '&' then "&amp;".data
  else if c = '<' then "&lt;".data
  else if c = '>' then "&gt;".data
  else [c]

/-- Character-list version of escapeHtml. -/
def escapeChars : List Char → List Char
  | [] => []
  | c :: cs => escapeHtmlChar c ++ escapeChars cs

/-- Models escapeHtml from utils.js. -/
def escapeHtml (text : String) : String :=
  String.mk (escapeChars text.data)

/-- The per-line classification inside formatAndHighlightPatch (utils.js):
given one already-escaped line, returns the css class and the code text,
following the if / else-if chain of the loop body. -/
def classifyLine (line : String) : String × String :=
  if jsStartsWith line "+" then ("diff-add", jsSubstringFrom line 1)
  else if jsStartsWith line "-" then ("diff-remove", jsSubstringFrom line 1)
  else if jsStartsWith line "@@" || jsStartsWith line "---" || jsStartsWith line "+++" then
    ("diff-meta", line)
  else if jsStartsWith line " " then ("", jsSubstringFrom line 1)
  else ("", line)

/-- One iteration of the loop in formatAndHighlightPatch (utils.js): classify
the line, syntax-highlight the code text unless the language is plaintext
(hl models hljs.highlight), and wrap the result in a span; an empty result
renders as a non-breaking space. -/
def renderLine (language : String) (hl : String → String) (line : String) : String :=
  let lc := classifyLine line
  let highlighted := if language = "plaintext" then lc.2 else hl lc.2
  "<span class=\"diff-line " ++ lc.1 ++ "\">" ++
    (if highlighted = "" then "&nbsp;" else highlighted) ++ "</span>"

/-- Models formatAndHighlightPatch from utils.js: falsy (empty) content short
circuits; otherwise the whole content is HTML-escaped, split into lines, and
each line is classified, highlighted and wrapped. -/
def formatAndHighlightPatch (patchContent : String) (language : String)
    (hl : String → String) : String :=
  if patchContent = "" then "No patch content available"
  else String.join ((jsSplitLines (escapeHtml patchContent)).map (renderLine language hl))

/-- The Record Store of dataLoader.js: the two module-level arrays prData and
filteredPrData. -/
structure Store where
  prData : List Record
  filteredPrData : List Record
deriving DecidableEq

/-- A successfully parsed JSON file: either a single object or an array of
objects (the only two shapes loadFiles accepts). -/
inductive JsonData where
  | single (r : Record)
  | array (rs : List Record)
deriving DecidableEq

/-- The normalization inside loadFiles: Array.isArray(data) ? data : [data]. -/
def normalizeData : JsonData → List Record
  | .single r => [r]
  | .array rs => rs

/-- The error surfaced by the catch branch of loadFiles. -/
inductive LoadError where
  | parseError
deriving DecidableEq

/-- Models the Promise.all join in loadFiles: every file is parsed; a single
parse failure rejects the whole join. -/
def parseAll (parse : String → Option JsonData) : List String → Option (List JsonData)
  | [] => some []
  | f :: fs =>
    match parse f, parseAll parse fs with
    | some d, some ds => some (d :: ds)
    | _, _ => none

/-- Models loadFiles from dataLoader.js. parse models JSON.parse on one file
content (none when JSON.parse throws). An empty file list is a no-op. On
success prData becomes the concatenation of the normalized per-file records
and filteredPrData an identical copy; on any parse failure the store is left
untouched and the error notification is surfaced. -/
def loadFiles (parse : String → Option JsonData) (files : List String)
    (st : Store) : Store × Option LoadError :=
  if files.length = 0 then (st, none)
  else
    match parseAll parse files with
    | none => (st, some LoadError.parseError)
    | some results =>
      let newData := (results.map normalizeData).flatten
      ({ prData := newData, filteredPrData := newData }, none)

/-- The UI selections read by applyFilters (dataLoader.js). prQuery is the raw
text input (applyFilters lower-cases it); selectedRepos are the checked
checkbox values (already lower-cased when created by populateRepoFilter);
startBound / endBound model the date inputs: none when the input is empty,
some b for the bound new Date(input) after setHours (b = none for an invalid
date). -/
structure FilterConfig where
  prQuery : String
  selectedRepos : List String
  startBound : Option (Option Int)
  endBound : Option (Option Int)
  failToPassChecked : Bool
deriving DecidableEq

/-- Models new Date(pr.created_at): an absent field gives an Invalid Date. -/
def jsDateVal (dparse : String → Option Int) : Option String → Option Int
  | none => none
  | some s => dparse s

/-- Models the JavaScript < comparison on Date values: any comparison
involving an Invalid Date (NaN) is false. -/
def jsLtOpt : Option Int → Option Int → Bool
  | some a, some b => decide (a < b)
  | _, _ => false

/-- Models the JavaScript > comparison on Date values. -/
def jsGtOpt : Option Int → Option Int → Bool
  | some a, some b => decide (b < a)
  | _, _ => false

/-- The matchesTitle condition of applyFilters:
pr.problem_statement?.toLowerCase().includes(prQuery). The optional chain
yields undefined (falsy) when problem_statement is absent. -/
def matchesTitle (ps : Option String) (prQuery : String) : Bool :=
  match ps with
  | none => false
  | some s => jsIncludes (jsToLowerCase s) prQuery

/-- The matchesRepo condition of applyFilters: no repo selected, or the
lower-cased repo is among the selected values (undefined is never a member). -/
def matchesRepo (repo : Option String) (selectedRepos : List String) : Bool :=
  selectedRepos.length = 0 ||
    (match repo with
     | none => false
     | some r => selectedRepos.contains (jsToLowerCase r))

/-- The matchesDate conditions of applyFilters: matchesDate starts true and is
cleared when a set start bound exceeds the record date or a set end bound is
below it; comparisons with an invalid record date never fire. -/
def matchesDate (dparse : String → Option Int) (startBound endBound : Option (Option Int))
    (created_at : Option String) : Bool :=
  let m1 := match startBound with
    | none => true
    | some start => !(jsLtOpt (jsDateVal dparse created_at) start)
  let m2 := match endBound with
    | none => true
    | some e => !(jsGtOpt (jsDateVal dparse created_at) e)
  m1 && m2

/-- The matchesFailToPass condition of applyFilters:
!failToPassChecked || pr.FAIL_TO_PASS. -/
def matchesFailToPass (failToPassChecked : Bool) (ftp : Option String) : Bool :=
  !failToPassChecked || jsTruthy ftp

/-- The predicate applied to each record by applyFilters (dataLoader.js), in
source order: matchesTitle && matchesRepo && matchesDate && matchesFailToPass. -/
def prMatches (dparse : String → Option Int) (cfg : FilterConfig) (pr : Record) : Bool :=
  matchesTitle pr.problem_statement (jsToLowerCase cfg.prQuery)
    && matchesRepo pr.repo cfg.selectedRepos
    && matchesDate dparse cfg.startBound cfg.endBound pr.created_at
    && matchesFailToPass cfg.failToPassChecked pr.FAIL_TO_PASS

/-- Models the Filter Engine of applyFilters (dataLoader.js): the filtered
view derived from the full dataset. -/
def applyFilters (dparse : String → Option Int) (cfg : FilterConfig)
    (prData : List Record) : List Record :=
  prData.filter (prMatches dparse cfg)

/-- The four counters produced by updateStats (dataAnalyzer.js). -/
structure StatsView where
  totalPRs : Nat
  failToPassPRs : Nat
  totalRepos : Nat
  failToPassRepos : Nat
deriving DecidableEq

/-- Models updateStats from dataAnalyzer.js: total count, count of records
with truthy FAIL_TO_PASS, and the sizes of the Sets of repo values of the
full data and of the fail-to-pass subset. -/
def updateStats (prData : List Record) : StatsView :=
  let failToPassPRsData := prData.filter (fun pr => jsTruthy pr.FAIL_TO_PASS)
  { totalPRs := prData.length
    failToPassPRs := failToPassPRsData.length
    totalRepos := ((prData.map Record.repo).dedup).length
    failToPassRepos := ((failToPassPRsData.map Record.repo).dedup).length }

/-- pr.patch?.length || 0 as used by createFileDistChart. -/
def patchLen (pr : Record) : Nat :=
  (pr.patch.map List.length).getD 0

/-- pr.patch?.reduce((sum, file) => sum + (file.changes || 0), 0) || 0 as used
by createChangesChart, prList.js and the detail view. -/
def changeCount (pr : Record) : Nat :=
  match pr.patch with
  | none => 0
  | some files => files.foldl (fun sum file => sum + file.changes.getD 0) 0

/-- The four bucket counters of one histogram (insertion order of the keys of
the distribution object). -/
structure Dist4 where
  b1 : Nat
  b2 : Nat
  b3 : Nat
  b4 : Nat
deriving DecidableEq

/-- Total of the four buckets. -/
def dist4Sum (d : Dist4) : Nat :=
  d.b1 + d.b2 + d.b3 + d.b4

/-- Models the bucketing of createFileDistChart (dataAnalyzer.js): per-record
file counts bucketed into 1-2 / 3-5 / 6-10 / 10+ by the chained ternary
count <= 2, count <= 5, count <= 10. -/
def createFileDistChart (prData : List Record) : Dist4 :=
  let filesCounts := prData.map patchLen
  filesCounts.foldl
    (fun distribution count =>
      if count ≤ 2 then { distribution with b1 := distribution.b1 + 1 }
      else if count ≤ 5 then { distribution with b2 := distribution.b2 + 1 }
      else if count ≤ 10 then { distribution with b3 := distribution.b3 + 1 }
      else { distribution with b4 := distribution.b4 + 1 })
    ⟨0, 0, 0, 0⟩

/-- Models the bucketing of createChangesChart (dataAnalyzer.js): per-record
total change counts bucketed into 1-10 / 11-50 / 51-100 / 100+ by the chained
ternary change <= 10, change <= 50, change <= 100. -/
def createChangesChart (prData : List Record) : Dist4 :=
  let changes := prData.map changeCount
  changes.foldl
    (fun distribution change =>
      if change ≤ 10 then { distribution with b1 := distribution.b1 + 1 }
      else if change ≤ 50 then { distribution with b2 := distribution.b2 + 1 }
      else if change ≤ 100 then { distribution with b3 := distribution.b3 + 1 }
      else { distribution with b4 := distribution.b4 + 1 })
    ⟨0, 0, 0, 0⟩

/-- new Date(pr.created_at) for a record, under the abstract date parser. -/
def dateOf (dparse : String → Option Int) (pr : Record) : Option Int :=
  jsDateVal dparse pr.created_at

/-- The comparator of generatePRList (prList.js):
(a, b) => new Date(b.created_at) - new Date(a.created_at); the result is NaN
(modelled none) when either date is invalid. -/
def jsSortCmp (dparse : String → Option Int) (a b : Record) : Option Int :=
  match dateOf dparse b, dateOf dparse a with
  | some db, some da => some (db - da)
  | _, _ => none

/-- A JavaScript comparator result counts as negative only when it is an
actual negative number; NaN does not. -/
def jsCmpNeg : Option Int → Bool
  | some v => decide (v < 0)
  | none => false

/-- Stable insertion of one record into an already sorted list, placing it
before the first element it strictly precedes under the comparator. -/
def sortInsert (dparse : String → Option Int) (x : Record) : List Record → List Record
  | [] => [x]
  | y :: ys =>
    if jsCmpNeg (jsSortCmp dparse x y) then x :: y :: ys
    else y :: sortInsert dparse x ys

/-- Models Array.prototype.sort with the comparator of generatePRList: a
stable comparison sort (engines are required to sort stably). -/
def jsSortByDateDesc (dparse : String → Option Int) : List Record → List Record
  | [] => []
  | x :: xs => sortInsert dparse x (jsSortByDateDesc dparse xs)

/-- Models the store effect of generatePRList (prList.js): the call
getFilteredPrData().sort(...) sorts the shared filteredPrData array in place,
so after rendering the stored filtered view is the sorted array; prData is
not touched. The DOM rendering of the cards is outside the model. -/
def generatePRList (dparse : String → Option Int) (st : Store) : Store :=
  { st with filteredPrData := jsSortByDateDesc dparse st.filteredPrData }

/-- Descending-by-created_at between two records: whenever both dates are
valid, the earlier-listed record has the later (or equal) date. -/
def descBy (dparse : String → Option Int) (a b : Record) : Prop :=
  ∀ u v, dateOf dparse a = some u → dateOf dparse b = some v → v ≤ u

/-- A record with every field absent. -/
def emptyRecord : Record :=
  { repo := none, number := none, created_at := none, problem_statement := none,
    patch := none, test_patch := none, FAIL_TO_PASS := none }

/-- The store before any load. -/
def emptyStore : Store :=
  { prData := [], filteredPrData := [] }

/-- The configuration with no active filter: empty text query, no repo
selected, both date inputs empty, toggle off. -/
def noFilters : FilterConfig :=
  { prQuery := "", selectedRepos := [], startBound := none, endBound := none,
    failToPassChecked := false }

/-- Scenario record 1: repo a/b with FAIL_TO_PASS test t1. -/
def scenarioRecord1 : Record :=
  { emptyRecord with repo := some "a/b", FAIL_TO_PASS := some "t1" }

/-- Scenario record 2: FAIL_TO_PASS unset. -/
def scenarioRecord2 : Record :=
  { emptyRecord with repo := some "c/d" }

/-- Scenario record 3: FAIL_TO_PASS unset. -/
def scenarioRecord3 : Record :=
  { emptyRecord with repo := some "e/f" }

/-- Concrete JSON.parse results for the two scenario files: the first file
holds a single object, the second an array of two objects. -/
def scenarioParse : String → Option JsonData := fun name =>
  if name = "file1.json" then some (JsonData.single scenarioRecord1)
  else if name = "file2.json" then some (JsonData.array [scenarioRecord2, scenarioRecord3])
  else none

/-- The statistics computed after loading the two scenario files into an
empty store. -/
def scenarioStats : StatsView :=
  updateStats (loadFiles scenarioParse ["file1.json", "file2.json"] emptyStore).1.prData

/-- A concrete date parser for the sorting demonstration. -/
def demoParse : String → Option Int := fun s =>
  if s = "2024-01-01" then some 100
  else if s = "2024-02-02" then some 200
  else none

/-- A record created earlier. -/
def demoOld : Record :=
  { emptyRecord with created_at := some "2024-01-01" }

/-- A record created later. -/
def demoNew : Record :=
  { emptyRecord with created_at := some "2024-02-02" }

/-- A store whose filtered view lists the older record first (dataset order). -/
def demoStore : Store :=
  { prData := [demoOld, demoNew], filteredPrData := [demoOld, demoNew] }

/-- A parse failure of any member file makes the whole join fail. -/
theorem parseAll_isNone_of_mem (parse : String → Option JsonData) {files : List String}
    {f : String} (hf : f ∈ files) (hp : parse f = none) :
    parseAll parse files = none := by
  induction files with
  | nil => cases hf
  | cons g fs ih =>
    rcases List.mem_cons.mp hf with h | h
    · subst h
      simp [parseAll, hp]
    · cases hg : parse g <;> simp [parseAll, hg, ih h]

/-- A fold by a step that always increases the bucket total by one adds the
length of the folded list to the total. -/
theorem foldlDist4_sum (step : Dist4 → Nat → Dist4) (counts : List Nat) (d : Dist4)
    (hstep : ∀ d c, dist4Sum (step d c) = dist4Sum d + 1) :
    dist4Sum (counts.foldl step d) = dist4Sum d + counts.length := by
  induction counts generalizing d with
  | nil => simp
  | cons c cs ih =>
    rw [List.foldl_cons, ih, hstep]
    simp only [List.length_cons]
    omega

/-- The escape of a character other than newline contains no newline. -/
theorem escapeHtmlChar_no_newline (c : Char) (hc : c ≠ '\n') :
    '\n' ∉ escapeHtmlChar c := by
  unfold escapeHtmlChar
  split_ifs
  · decide
  · decide
  · decide
  · intro hmem
    exact hc (List.mem_singleton.mp hmem).symm

/-- Splitting always yields at least one (possibly empty) line. -/
theorem splitLinesChars_ne_nil (l : List Char) : splitLinesChars l ≠ [] := by
  cases l with
  | nil => simp [splitLinesChars]
  | cons c cs =>
    cases h : splitLinesChars cs with
    | nil => simp [splitLinesChars, h]
    | cons x xs =>
      simp only [splitLinesChars, h]
      split <;> simp

/-- Prepending newline-free characters extends the first line of the split. -/
theorem splitLinesChars_append (a b : List Char) (ha : '\n' ∉ a) :
    splitLinesChars (a ++ b)
      = (a ++ (splitLinesChars b).headI) :: (splitLinesChars b).tail := by
  induction a with
  | nil =>
    cases h : splitLinesChars b with
    | nil => exact absurd h (splitLinesChars_ne_nil b)
    | cons x xs => simp [h]
  | cons c a2 ih =>
    have hc : c ≠ '\n' := by
      intro h
      exact ha (by simp [h])
    have ha2 : '\n' ∉ a2 := by
      intro h
      exact ha (by simp [h])
    simp only [List.cons_append, splitLinesChars, List.append_eq]
    rw [ih ha2]
    simp [hc]

/-- HTML-escaping commutes with splitting into lines: escaping the whole
text and then splitting gives exactly the per-line escapes. -/
theorem splitLinesChars_escape (l : List Char) :
    splitLinesChars (escapeChars l) = (splitLinesChars l).map escapeChars := by
  induction l with
  | nil => rfl
  | cons c cs ih =>
    by_cases hc : c = '\n'
    · subst hc
      cases h : splitLinesChars cs with
      | nil => exact absurd h (splitLinesChars_ne_nil cs)
      | cons y ys =>
        have he : escapeChars ('\n' :: cs) = '\n' :: escapeChars cs := rfl
        rw [he]
        simp only [splitLinesChars, ih, h]
        simp [escapeChars]
    · cases h : splitLinesChars cs with
      | nil => exact absurd h (splitLinesChars_ne_nil cs)
      | cons y ys =>
        have he : escapeChars (c :: cs) = escapeHtmlChar c ++ escapeChars cs := rfl
        rw [he, splitLinesChars_append _ _ (escapeHtmlChar_no_newline c hc), ih, h]
        simp only [splitLinesChars, h]
        simp [hc, escapeChars]

/-- Inserting an element permutes it to the front. -/
theorem sortInsert_perm (dparse : String → Option Int) (x : Record) (l : List Record) :
    List.Perm (sortInsert dparse x l) (x :: l) := by
  induction l with
  | nil => exact List.Perm.refl _
  | cons y ys ih =>
    dsimp [sortInsert]
    split
    · exact List.Perm.refl _
    · exact (ih.cons y).trans (List.Perm.swap x y ys)

/-- Members of an insertion come from the inserted element or the old list. -/
theorem mem_sortInsert {dparse : String → Option Int} {x r : Record} {l : List Record}
    (h : r ∈ sortInsert dparse x l) : r = x ∨ r ∈ l := by
  have := (sortInsert_perm dparse x l).mem_iff.mp h
  simpa using this

/-- The sort is a permutation of its input. -/
theorem jsSortByDateDesc_perm (dparse : String → Option Int) (l : List Record) :
    List.Perm (jsSortByDateDesc dparse l) l := by
  induction l with
  | nil => exact List.Perm.refl _
  | cons x xs ih => exact (sortInsert_perm dparse x _).trans (ih.cons x)

/-- Insertion preserves the descending-date pairwise invariant. -/
theorem pairwise_sortInsert (dparse : String → Option Int) (x : Record) (l : List Record)
    (h : List.Pairwise (descBy dparse) l) :
    List.Pairwise (descBy dparse) (sortInsert dparse x l) := by
  induction l with
  | nil => simp [sortInsert, descBy]
  | cons y ys ih =>
    rcases List.pairwise_cons.mp h with ⟨hy, hys⟩
    dsimp [sortInsert]
    split
    case isTrue hcond =>
      have hxy : ∃ dy dx, dateOf dparse y = some dy ∧ dateOf dparse x = some dx ∧ dy < dx := by
        cases hdy : dateOf dparse y with
        | none => simp [jsSortCmp, jsCmpNeg, hdy] at hcond
        | some dy =>
          cases hdx : dateOf dparse x with
          | none => simp [jsSortCmp, jsCmpNeg, hdy, hdx] at hcond
          | some dx =>
            refine ⟨dy, dx, rfl, rfl, ?_⟩
            simp [jsSortCmp, jsCmpNeg, hdy, hdx] at hcond
            omega
      obtain ⟨dy, dx, hdy, hdx, hlt⟩ := hxy
      refine List.pairwise_cons.mpr ⟨?_, h⟩
      intro z hz
      rcases List.mem_cons.mp hz with rfl | hz2
      · intro u v hxu hzv
        rw [hdx] at hxu
        rw [hdy] at hzv
        injection hxu with hu
        injection hzv with hv
        omega
      · intro u v hxu hzv
        rw [hdx] at hxu
        injection hxu with hu
        have := hy z hz2 dy v hdy hzv
        omega
    case isFalse hcond =>
      refine List.pairwise_cons.mpr ⟨?_, ih hys⟩
      intro z hz
      rcases mem_sortInsert hz with rfl | hz2
      · intro u v hyu hzv
        simp [jsSortCmp, jsCmpNeg, hyu, hzv] at hcond
        omega
      · exact hy z hz2

/-- The sorted list satisfies the descending-date pairwise invariant. -/
theorem pairwise_jsSortByDateDesc (dparse : String → Option Int) (l : List Record) :
    List.Pairwise (descBy dparse) (jsSortByDateDesc dparse l) := by
  induction l with
  | nil => exact List.Pairwise.nil
  | cons x xs ih => exact pairwise_sortInsert dparse x _ ih

/-- Claim C1 counterexample: a raw diff line starting with three dashes is
caught by the minus branch of the classifier, not the metadata branch: it
gets the removal class and its leading dash is stripped; likewise a
plus-plus-plus line gets the addition class with the leading plus stripped. -/
theorem classifyLine_meta_counterexample :
    classifyLine "--- a/main.py" = ("diff-remove", "-- a/main.py")
    ∧ classifyLine "+++ b/main.py" = ("diff-add", "++ b/main.py")
    ∧ ("diff-remove" : String) ≠ "diff-meta" :=
  ⟨rfl, rfl, by decide⟩

/-- Claim C1 (amended): only lines starting with two at-signs reach the
metadata branch, with their text left as-is; lines starting with three
dashes are classified as removals with the leading dash stripped, lines
starting with three pluses as additions with the leading plus stripped; and
a metadata line is passed through the same highlighting step as any other
line when the language is not plaintext. -/
theorem classifyLine_meta_amended (s : List Char) (hl : String → String) :
    classifyLine (String.mk ('@' :: '@' :: s)) = ("diff-meta", String.mk ('@' :: '@' :: s))
    ∧ classifyLine (String.mk ('-' :: '-' :: '-' :: s))
        = ("diff-remove", String.mk ('-' :: '-' :: s))
    ∧ classifyLine (String.mk ('+' :: '+' :: '+' :: s))
        = ("diff-add", String.mk ('+' :: '+' :: s))
    ∧ renderLine "python" hl (String.mk ('@' :: '@' :: s))
        = "<span class=\"diff-line diff-meta\">" ++
            (if hl (String.mk ('@' :: '@' :: s)) = "" then "&nbsp;"
             else hl (String.mk ('@' :: '@' :: s))) ++ "</span>" :=
  ⟨rfl, rfl, rfl, rfl⟩

/-- Claim C2 counterexample: with an empty text query, a record whose
problem_statement is absent fails the text condition and is dropped by the
Filter Engine even though every other condition is off. -/
theorem matchesTitle_empty_counterexample :
    matchesTitle none (jsToLowerCase "") = false
    ∧ applyFilters (fun _ => none) noFilters [emptyRecord] = [] :=
  ⟨rfl, rfl⟩

/-- Claim C2 (amended): the text condition holds exactly when the record has
a problem_statement whose lower-cased text contains the lower-cased query;
in particular a record with an absent problem_statement never satisfies the
text condition (not even for the empty query), while any record with a
problem_statement satisfies it when the query is empty. -/
theorem matchesTitle_amended (ps : Option String) (rawQ : String) :
    (matchesTitle ps (jsToLowerCase rawQ) = true ↔
      ∃ s, ps = some s ∧ (jsToLowerCase rawQ).data <:+: (jsToLowerCase s).data)
    ∧ matchesTitle none rawQ = false
    ∧ matchesTitle ps "" = ps.isSome := by
  refine ⟨?_, rfl, ?_⟩
  · cases ps with
    | none => simp [matchesTitle]
    | some s => simp [matchesTitle, jsIncludes]
  · cases ps with
    | none => rfl
    | some s =>
      simp only [matchesTitle, jsIncludes, Option.isSome]
      simp

/-- Claim C4: for every date parser, predicate configuration and dataset,
the Filter Engine output is a subsequence of the input (so each record
occurs at most as often as in the input and relative order is preserved). -/
theorem applyFilters_sublist (dparse : String → Option Int) (cfg : FilterConfig)
    (l : List Record) :
    List.Sublist (applyFilters dparse cfg l) l
    ∧ ∀ r : Record, (applyFilters dparse cfg l).count r ≤ l.count r :=
  ⟨List.filter_sublist l, fun r => (List.filter_sublist l).count_le r⟩

/-- Claim C5: loading the two scenario files (one single object with repo a/b
and FAIL_TO_PASS t1, one array of two objects with FAIL_TO_PASS unset) yields
total 3, fail-to-pass count 1, and one distinct fail-to-pass repository. -/
theorem updateStats_scenario :
    scenarioStats.totalPRs = 3
    ∧ scenarioStats.failToPassPRs = 1
    ∧ scenarioStats.failToPassRepos = 1 :=
  ⟨rfl, rfl, rfl⟩

/-- Claim C7: a record whose patch is absent or the empty sequence increments
the first (1-2) bucket of the file-count histogram and the first (1-10)
bucket of the change-volume histogram. -/
theorem emptyPatch_buckets (pr : Record) :
    createFileDistChart [{ pr with patch := none }] = ⟨1, 0, 0, 0⟩
    ∧ createFileDistChart [{ pr with patch := some [] }] = ⟨1, 0, 0, 0⟩
    ∧ createChangesChart [{ pr with patch := none }] = ⟨1, 0, 0, 0⟩
    ∧ createChangesChart [{ pr with patch := some [] }] = ⟨1, 0, 0, 0⟩ :=
  ⟨rfl, rfl, rfl, rfl⟩

/-- Claim C10: a record with an absent created_at satisfies the date
conditions for every start and end bound (its parsed date is invalid, and an
invalid date compares neither below the start bound nor above the end
bound), so the date filters never exclude it: the full predicate degenerates
to the three remaining conditions. -/
theorem absentDate_passesDateFilter (dparse : String → Option Int)
    (cfg : FilterConfig) (pr : Record) :
    matchesDate dparse cfg.startBound cfg.endBound none = true
    ∧ jsDateVal dparse none = none
    ∧ (∀ t : Int, jsLtOpt none (some t) = false ∧ jsGtOpt none (some t) = false)
    ∧ prMatches dparse cfg { pr with created_at := none }
        = (matchesTitle pr.problem_statement (jsToLowerCase cfg.prQuery)
            && matchesRepo pr.repo cfg.selectedRepos
            && matchesFailToPass cfg.failToPassChecked pr.FAIL_TO_PASS) := by
  have h1 : matchesDate dparse cfg.startBound cfg.endBound none = true := by
    cases h : cfg.startBound <;> cases h2 : cfg.endBound <;> rfl
  refine ⟨h1, rfl, fun t => ⟨rfl, rfl⟩, ?_⟩
  simp [prMatches, h1]

/-- Claim C3: loading is all-or-nothing: when any uploaded file fails to
parse, loadFiles surfaces the parse error and leaves the store (both the
full dataset and the filtered view) exactly as it was before the load. -/
theorem loadFiles_allOrNothing (parse : String → Option JsonData) (files : List String)
    (st : Store) (f : String) (hf : f ∈ files) (hp : parse f = none) :
    loadFiles parse files st = (st, some LoadError.parseError) := by
  have hne : files.length ≠ 0 := by
    cases files with
    | nil => cases hf
    | cons g fs => simp
  simp [loadFiles, hne, parseAll_isNone_of_mem parse hf hp]

/-- Witness for claim C3: a concrete one-file load whose parse fails leaves
the empty store untouched and reports the parse error. -/
theorem loadFiles_allOrNothing_witness :
    loadFiles (fun _ => none) ["only.json"] emptyStore
      = (emptyStore, some LoadError.parseError) :=
  loadFiles_allOrNothing (fun _ => none) ["only.json"] emptyStore "only.json"
    (List.mem_singleton.mpr rfl) rfl

/-- Claim C6: for every input subset of records, the four bucket counts of
the file-count histogram sum to its length, and so do the four bucket counts
of the change-volume histogram: each record increments exactly one bucket. -/
theorem histogram_sums (l : List Record) :
    dist4Sum (createFileDistChart l) = l.length
    ∧ dist4Sum (createChangesChart l) = l.length := by
  constructor
  · simp only [createFileDistChart]
    rw [foldlDist4_sum]
    · simp [dist4Sum]
    · intro d c
      dsimp only
      split_ifs <;> simp only [dist4Sum] <;> omega
  · simp only [createChangesChart]
    rw [foldlDist4_sum]
    · simp [dist4Sum]
    · intro d c
      dsimp only
      split_ifs <;> simp only [dist4Sum] <;> omega

set_option maxRecDepth 4000 in
/-- Claim C8: the whole diff text is HTML-escaped before the lines are
classified and highlighted. The concrete addition line containing a script
tag renders with the addition class, its markup escaped and its leading plus
stripped (before highlighting, as the non-plaintext rendering shows), no
literal script tag survives, and an empty resulting line renders as a single
non-breaking space. -/
theorem diffFormatter_escapes (hl : String → String) (s : List Char) :
    formatAndHighlightPatch "+console.log(\x27<script>\x27)" "plaintext" hl
      = "<span class=\"diff-line diff-add\">console.log(\x27&lt;script&gt;\x27)</span>"
    ∧ jsIncludes (formatAndHighlightPatch "+console.log(\x27<script>\x27)" "plaintext" hl)
        "<script" = false
    ∧ formatAndHighlightPatch "+console.log(\x27<script>\x27)" "javascript" hl
      = "<span class=\"diff-line diff-add\">" ++
          (if hl "console.log(\x27&lt;script&gt;\x27)" = "" then "&nbsp;"
           else hl "console.log(\x27&lt;script&gt;\x27)") ++ "</span>"
    ∧ jsSplitLines (escapeHtml (String.mk s)) = (jsSplitLines (String.mk s)).map escapeHtml
    ∧ renderLine "plaintext" hl "" = "<span class=\"diff-line \">&nbsp;</span>"
    ∧ renderLine "plaintext" hl "+" = "<span class=\"diff-line diff-add\">&nbsp;</span>" := by
  refine ⟨rfl, rfl, rfl, ?_, rfl, rfl⟩
  show (splitLinesChars (escapeChars s)).map String.mk
      = ((splitLinesChars s).map String.mk).map escapeHtml
  rw [splitLinesChars_escape, List.map_map, List.map_map]
  rfl

/-- Claim C9: generatePRList sorts the stored filtered view in place: after
rendering, the filtered view is a permutation of its old value ordered
descending by created_at (whenever two records both carry valid dates, the
earlier-listed one has the later or equal date), while the full dataset is
untouched; the concrete demonstration shows the filtered view leaving the
original dataset order that the Filter Engine produced. -/
theorem generatePRList_sortsInPlace (dparse : String → Option Int) (st : Store) :
    (generatePRList dparse st).prData = st.prData
    ∧ List.Perm (generatePRList dparse st).filteredPrData st.filteredPrData
    ∧ List.Pairwise (descBy dparse) (generatePRList dparse st).filteredPrData
    ∧ (generatePRList demoParse demoStore).filteredPrData = [demoNew, demoOld]
    ∧ (generatePRList demoParse demoStore).filteredPrData ≠ demoStore.filteredPrData
    ∧ (generatePRList demoParse demoStore).prData = demoStore.prData :=
  ⟨rfl, jsSortByDateDesc_perm dparse st.filteredPrData,
    pairwise_jsSortByDateDesc dparse st.filteredPrData, rfl, by decide, rfl⟩

end DataViz
